import Mathlib

/-!
Shallow embedding of `src/fire/fire_system.py` (class `FireSystem`) of the
fat-sparrow repository, together with proofs settling the frozen claims
about the wildfire-spread core.

Modelling conventions:
* numpy float grids become total functions `ℤ → ℤ → ℚ`; every grid access in
  the source is guarded by an explicit bounds check (or is provably in
  bounds at its call site), so no wrap-around indexing needs to be modelled.
* Python float arithmetic is modelled by exact rational arithmetic.  All
  intermediate values relevant to the claims (grid contents, the
  `np.linspace` sample points between adjacent cells, the loop bounds) are
  either integers or dyadic rationals that float64 represents exactly; the
  remaining float quantities (spread probabilities, the trigonometric wind
  vector) only enter the claims through universally quantified parameters.
* the single stochastic primitive, `np.random.random() < spread_prob` inside
  `_spread_fire`, is abstracted into a Boolean oracle
  `SpreadOracle : ℤ → ℤ → ℤ → ℤ → Bool` giving, for each
  (source, target) pair visited in a tick, whether the Bernoulli draw
  succeeded.  `spread_prob` (a float computed from the wind alignment, wind
  speed band, humidity and fuel of the target) feeds only this comparison,
  and every theorem below quantifies over all oracles, hence over all
  possible draws and all wind states.
-/

namespace FatSparrow

/-- Grids of per-cell scalar state (`np.zeros((grid_size, grid_size))` etc.),
modelled as total functions from integer coordinates to rationals. -/
abbrev Grid := ℤ → ℤ → ℚ

/-- Outcome oracle for the Bernoulli draw `np.random.random() < spread_prob`
performed for a (source i j, target ni nj) pair inside `_spread_fire`. -/
abbrev SpreadOracle := ℤ → ℤ → ℤ → ℤ → Bool

/-- Pointwise array write `g[i, j] = v`. -/
def setCell (g : Grid) (i j : ℤ) (v : ℚ) : Grid :=
  fun a b => if a = i ∧ b = j then v else g a b

/-- Bounds check `0 <= i < grid_size and 0 <= j < grid_size` as written
throughout `fire_system.py`. -/
def inBounds (n i j : ℤ) : Bool :=
  decide (0 ≤ i) && decide (i < n) && decide (0 ≤ j) && decide (j < n)

/-- Python's `range`-style list of integers `a, a+1, ..., b-1`. -/
def intRange (a b : ℤ) : List ℤ :=
  (List.range (b - a).toNat).map (fun (k : ℕ) => a + (k : ℤ))

/-- Python's `range(a, b, step)` for a positive `step`. -/
def intRangeStep (a b step : ℤ) : List ℤ :=
  (List.range ((b - a + step - 1) / step).toNat).map (fun (k : ℕ) => a + step * (k : ℤ))

/-- Rounding of a rational to the nearest integer, halves to the even
integer: the semantics of Python 3 `round` / numpy rounding used on the
`np.linspace` sample points in `_check_suppressant_line`. -/
def roundHalfEven (q : ℚ) : ℤ :=
  let f := ⌊q⌋
  let r := q - (f : ℚ)
  if r < 1/2 then f
  else if 1/2 < r then f + 1
  else if f % 2 = 0 then f else f + 1

/-- Python `int(...)` truncation of a rational toward zero. -/
def pyInt (q : ℚ) : ℤ := if 0 ≤ q then ⌊q⌋ else -⌊-q⌋

/-- Python's builtin `max(a, b)` (returns the first argument on ties). -/
def pymax (a b : ℚ) : ℚ := if b ≤ a then a else b

/-- Python's builtin `min(a, b)` (returns the first argument on ties). -/
def pymin (a b : ℚ) : ℚ := if a ≤ b then a else b

/-- State of `class FireSystem`: the five co-indexed grids plus the scalar
attributes the claims touch.  The numeric constants set in `__init__` are
modelled as the definitions below (they are never reassigned). -/
structure FireSystem where
  grid_size : ℤ
  temperature_grid : Grid
  fuel_grid : Grid
  humidity_grid : Grid
  burning_grid : Grid
  suppressant_grid : Grid
  suppressant_count : ℕ

/-- `self.IGNITION_TEMP = 300`. -/
def IGNITION_TEMP : ℚ := 300

/-- `self.MAX_TEMP = 800`. -/
def MAX_TEMP : ℚ := 800

/-- `self.AMBIENT_TEMP = 25`. -/
def AMBIENT_TEMP : ℚ := 25

/-- `self.COOLING_RATE = 0.005 * self.time_per_step` with
`time_per_step = 10.0`. -/
def COOLING_RATE : ℚ := 0.005 * 10

/-- `self.FUEL_CONSUMPTION_RATE = 0.025`. -/
def FUEL_CONSUMPTION_RATE : ℚ := 0.025

/-- `_normalize_noise`: affine rescale of a raw noise value in `[-1, 1]`
into `[min_val, max_val]`. -/
def normalize_noise (value min_val max_val : ℚ) : ℚ :=
  min_val + (max_val - min_val) * (value + 1) / 2

/-- `_initialize_terrain`, parameterised by the two Perlin-noise samplers
(external library `perlin_noise`, modelled as arbitrary functions of the
scaled coordinates).  Each loop iteration writes only cell `(i, j)` of the
humidity and fuel grids and reads only the noise, so the double loop is
rendered pointwise over the in-bounds cells. -/
def initialize_terrain (n : ℤ) (terrain_noise moisture_noise : ℚ → ℚ → ℚ) :
    Grid × Grid :=
  (fun i j =>
    if inBounds n i j then
      normalize_noise (moisture_noise ((i : ℚ) / 50 * 1.5) ((j : ℚ) / 50 * 1.5)) 0.2 0.9
    else 0,
   fun i j =>
    if inBounds n i j then
      normalize_noise (terrain_noise ((i : ℚ) / 50) ((j : ℚ) / 50)) 0.3 1.0 *
        (1 - normalize_noise (moisture_noise ((i : ℚ) / 50 * 1.5) ((j : ℚ) / 50 * 1.5)) 0.2 0.9 * 0.6)
    else 0)

/-- The `FireSystem` object produced by a successful `__init__`: the five
grids are `np.zeros((grid_size, grid_size))` before `_initialize_terrain`
fills `humidity_grid` and `fuel_grid`; `suppressant_count = 0`. -/
def initGrids (grid_size : ℤ) (terrain_noise moisture_noise : ℚ → ℚ → ℚ) :
    FireSystem :=
  { grid_size := grid_size
    temperature_grid := fun _ _ => 0
    fuel_grid := (initialize_terrain grid_size terrain_noise moisture_noise).2
    humidity_grid := (initialize_terrain grid_size terrain_noise moisture_noise).1
    burning_grid := fun _ _ => 0
    suppressant_grid := fun _ _ => 0
    suppressant_count := 0 }

/-- `FireSystem.__init__(grid_size)`.  `np.zeros((grid_size, grid_size))`
raises `ValueError: negative dimensions are not allowed` for a negative
dimension, which is the only failing path; `grid_size = 0` produces empty
arrays and the terrain loops run zero iterations, so construction
succeeds. -/
def init (grid_size : ℤ) (terrain_noise moisture_noise : ℚ → ℚ → ℚ) :
    Except String FireSystem :=
  if grid_size < 0 then .error "negative dimensions are not allowed"
  else .ok (initGrids grid_size terrain_noise moisture_noise)

/-- One iteration of the double loop in `start_fire`: offset `(i, j)` from
`position = (x, y)`; inside the circular mask and the grid bounds the cell
is set to `MAX_TEMP` and marked burning. -/
def startFireStep (n : ℤ) (x y radius : ℤ) (s : FireSystem) (d : ℤ × ℤ) :
    FireSystem :=
  if d.1 * d.1 + d.2 * d.2 ≤ radius * radius then
    if inBounds n (x + d.1) (y + d.2) then
      { s with
        temperature_grid := setCell s.temperature_grid (x + d.1) (y + d.2) MAX_TEMP
        burning_grid := setCell s.burning_grid (x + d.1) (y + d.2) 1 }
    else s
  else s

/-- `start_fire(position, radius)`: iterate offsets
`i in range(-radius, radius+1)`, `j in range(-radius, radius+1)` in order
and apply `startFireStep`.  (`self.grid_size` is never reassigned, so it is
read once up front.) -/
def start_fire (s : FireSystem) (position : ℤ × ℤ) (radius : ℤ) : FireSystem :=
  ((intRange (-radius) (radius + 1)).flatMap
      (fun i => (intRange (-radius) (radius + 1)).map (fun j => (i, j)))).foldl
    (startFireStep s.grid_size position.1 position.2 radius) s

/-- `np.where(self.burning_grid > 0)`: the in-bounds cells with a positive
burning flag, in the row-major order numpy reports them. -/
def burningLocations (s : FireSystem) : List (ℤ × ℤ) :=
  (intRange 0 s.grid_size).flatMap (fun i =>
    (intRange 0 s.grid_size).filterMap (fun j =>
      if 0 < s.burning_grid i j then some (i, j) else none))

/-- The non-diagonal neighbor offsets `[(0, 1), (1, 0), (0, -1), (-1, 0)]`
inspected by the suppression check in `update`. -/
def orthNeighbors : List (ℤ × ℤ) := [(0, 1), (1, 0), (0, -1), (-1, 0)]

/-- The inner neighbor loop of the suppression check: some in-bounds
4-neighbor of `(i, j)` carries suppressant (`suppressant_grid[ni, nj] > 0`).
The source breaks at the first match; as a pure value this is the
disjunction over the four offsets. -/
def hasSuppressantNeighbor (s : FireSystem) (i j : ℤ) : Bool :=
  orthNeighbors.any (fun d =>
    inBounds s.grid_size (i + d.1) (j + d.2) &&
      decide (0 < s.suppressant_grid (i + d.1) (j + d.2)))

/-- One iteration of the first loop of `update` ("check suppressant effects
first"), acting on the `(new_temp, new_burning)` pair for the burning cell
`c`: if a 4-neighbor carries suppressant, extinguish the cell. -/
def suppressionStep (s : FireSystem) (tb : Grid × Grid) (c : ℤ × ℤ) :
    Grid × Grid :=
  if hasSuppressantNeighbor s c.1 c.2 then
    (setCell tb.1 c.1 c.2 AMBIENT_TEMP, setCell tb.2 c.1 c.2 0)
  else tb

/-- The fuel grid after the in-place consumption
`self.fuel_grid[i, j] = max(0, self.fuel_grid[i, j] - FUEL_CONSUMPTION_RATE)`
performed for every cell of `np.where(self.burning_grid > 0)`.  Each loop
iteration writes only its own cell and reads only its own pre-tick value,
so the loop is rendered pointwise. -/
def fuelAfter (s : FireSystem) : Grid :=
  fun a b =>
    if inBounds s.grid_size a b && decide (0 < s.burning_grid a b) then
      pymax 0 (s.fuel_grid a b - FUEL_CONSUMPTION_RATE)
    else s.fuel_grid a b

/-- `_check_suppressant_line(i1, j1, i2, j2)`:
`np.linspace((i1, j1), (i2, j2), 5)` samples the five points at fractions
`k/4` of the segment (exact in float64 for adjacent cells), each rounded
half-to-even and tested for a truthy `suppressant_grid` entry. -/
def check_suppressant_line (s : FireSystem) (i1 j1 i2 j2 : ℤ) : Bool :=
  (List.range 5).any (fun k =>
    let ii := roundHalfEven ((i1 : ℚ) + (k : ℚ) * ((i2 : ℚ) - (i1 : ℚ)) / 4)
    let jj := roundHalfEven ((j1 : ℚ) + (k : ℚ) * ((j2 : ℚ) - (j1 : ℚ)) / 4)
    decide (s.suppressant_grid ii jj ≠ 0))

/-- One iteration of the neighbor loop of `_spread_fire` from source
`(i, j)` with offset `d`: skip the source itself, out-of-grid targets and
targets whose connecting line holds suppressant; otherwise, when the
Bernoulli draw `np.random.random() < spread_prob` succeeds (oracle `R`) and
the target was not burning at the start of the tick, heat the target by 300
(capped at `MAX_TEMP`) and mark it burning when the new temperature reaches
`IGNITION_TEMP`.  The probability `spread_prob` — assembled in the source
from `BASE_SPREAD_RATE * time_per_step / 60`, the wind-speed band
multiplier, the `_calculate_wind_alignment` cosine and the target's
humidity and fuel factors — feeds only the abstracted draw. -/
def spreadStep (s : FireSystem) (R : SpreadOracle) (i j : ℤ)
    (tb : Grid × Grid) (d : ℤ × ℤ) : Grid × Grid :=
  if d = (0, 0) then tb
  else if !inBounds s.grid_size (i + d.1) (j + d.2) then tb
  else if check_suppressant_line s i j (i + d.1) (j + d.2) then tb
  else if R i j (i + d.1) (j + d.2) &&
      decide (s.burning_grid (i + d.1) (j + d.2) = 0) then
    if IGNITION_TEMP ≤ pymin MAX_TEMP (tb.1 (i + d.1) (j + d.2) + 300) then
      (setCell tb.1 (i + d.1) (j + d.2)
        (pymin MAX_TEMP (tb.1 (i + d.1) (j + d.2) + 300)),
       setCell tb.2 (i + d.1) (j + d.2) 1)
    else
      (setCell tb.1 (i + d.1) (j + d.2)
        (pymin MAX_TEMP (tb.1 (i + d.1) (j + d.2) + 300)),
       tb.2)
  else tb

/-- `_spread_fire(i, j, wind, new_temp, new_burning)`: the
`di in [-1, 0, 1]`, `dj in [-1, 0, 1]` double loop over the 8-connected
neighborhood. -/
def spread_fire (s : FireSystem) (R : SpreadOracle) (i j : ℤ)
    (tb : Grid × Grid) : Grid × Grid :=
  (([-1, 0, 1] : List ℤ).flatMap
      (fun di => ([-1, 0, 1] : List ℤ).map (fun dj => (di, dj)))).foldl
    (spreadStep s R i j) tb

/-- The fuel-exhaustion / spread part of one iteration of the second loop of
`update` for the burning cell `c`: after the fuel consumption (whose
per-cell result is `fuelAfter`), either extinguish on fuel exhaustion
(`new_burning = 0`, `new_temp = AMBIENT_TEMP`) or spread fire to the
neighbors. -/
def burnOrSpread (s : FireSystem) (R : SpreadOracle) (tb : Grid × Grid)
    (c : ℤ × ℤ) : Grid × Grid :=
  if fuelAfter s c.1 c.2 ≤ 0 then
    (setCell tb.1 c.1 c.2 AMBIENT_TEMP, setCell tb.2 c.1 c.2 0)
  else spread_fire s R c.1 c.2 tb

/-- One full iteration of the second loop of `update`: `burnOrSpread`, then
the cooling step `new_temp[i,j] = max(AMBIENT_TEMP, new_temp[i,j] −
COOLING_RATE)` applied when the cell's `new_burning` entry is zero. -/
def burnSpreadStep (s : FireSystem) (R : SpreadOracle) (tb : Grid × Grid)
    (c : ℤ × ℤ) : Grid × Grid :=
  if (burnOrSpread s R tb c).2 c.1 c.2 = 0 then
    (setCell (burnOrSpread s R tb c).1 c.1 c.2
      (pymax AMBIENT_TEMP ((burnOrSpread s R tb c).1 c.1 c.2 - COOLING_RATE)),
     (burnOrSpread s R tb c).2)
  else burnOrSpread s R tb c

/-- The `(new_temp, new_burning)` pair at the end of `update`: the copies
of the temperature and burning grids after the suppression-check loop and
then the fuel/spread/cooling loop (both loops iterate `np.where` of the
pre-tick burning grid). -/
def updatedTB (R : SpreadOracle) (s : FireSystem) : Grid × Grid :=
  (burningLocations s).foldl (burnSpreadStep s R)
    ((burningLocations s).foldl (suppressionStep s)
      (s.temperature_grid, s.burning_grid))

/-- `update(wind, dt)`: copy the temperature and burning grids, run the
suppression-check loop, then the fuel/spread/cooling loop, and store the
results.  The `dt` argument of the source is never read (the body uses
`time_per_step`), and `wind` enters only through `spread_prob`, abstracted
into the oracle `R`. -/
def update (R : SpreadOracle) (s : FireSystem) : FireSystem :=
  { s with
    temperature_grid := (updatedTB R s).1
    burning_grid := (updatedTB R s).2
    fuel_grid := fuelAfter s }

/-- The cells from which `update` actually evaluates `_spread_fire` in one
tick: the second loop iterates `np.where` of the pre-tick burning grid and
calls `_spread_fire` exactly when the freshly consumed fuel is still
positive — the `new_burning` entry written by the suppression check is
never consulted. -/
def spreadSources (s : FireSystem) : List (ℤ × ℤ) :=
  (burningLocations s).filter (fun c => !decide (fuelAfter s c.1 c.2 ≤ 0))

/-- The cells still burning after the suppression check (step 1) and the
fuel-exhaustion extinction (step 2) of a tick: pre-tick burning cells with
no suppressant 4-neighbor and positive remaining fuel.  Per the spec these
should be exactly the spread sources. -/
def stillBurningAfterSteps12 (s : FireSystem) : List (ℤ × ℤ) :=
  (burningLocations s).filter (fun c =>
    !hasSuppressantNeighbor s c.1 c.2 && !decide (fuelAfter s c.1 c.2 ≤ 0))

/-- The offsets `[(0,0), (1,0), (-1,0), (0,1), (0,-1)]` of the 5-cell plus
pattern stamped around each deployment point. -/
def plusOffsets : List (ℤ × ℤ) := [(0, 0), (1, 0), (-1, 0), (0, 1), (0, -1)]

/-- Stamp the plus pattern centred at `(a, b)` into the suppressant grid,
skipping out-of-grid cells. -/
def stampPlus (n : ℤ) (g : Grid) (a b : ℤ) : Grid :=
  plusOffsets.foldl
    (fun g' d =>
      if inBounds n (a + d.1) (b + d.2) then setCell g' (a + d.1) (b + d.2) 1
      else g')
    g

/-- The `curve_factor` branch of the deployment loop: downwind line points
(`t > 0`) bow with `-t² / (3·line_length)`, upwind ones with
`-t² / (6·line_length)`, `line_length = 25`.  (The accompanying `spacing`
local of the source is assigned but never read.) -/
def curveFactor (t : ℤ) : ℚ :=
  if 0 < t then -((t : ℚ) * (t : ℚ)) / (3 * 25)
  else -((t : ℚ) * (t : ℚ)) / (6 * 25)

/-- One iteration of the deployment loop of `deploy_suppressants` at line
parameter `t`, acting on the `(suppressant_grid, suppressant_count)` pair:
compute the curved line point
`(int(start_i + perp_i*t + wind_i*curve), int(start_j + perp_j*t + wind_j*curve))`,
and when it is in bounds and the budget of 50 is not yet reached, stamp the
plus pattern and increment the count once. -/
def deployPoint (n : ℤ) (start_i start_j : ℤ) (wind_i wind_j perp_i perp_j : ℚ)
    (acc : Grid × ℕ) (t : ℤ) : Grid × ℕ :=
  if inBounds n (pyInt ((start_i : ℚ) + perp_i * (t : ℚ) + wind_i * curveFactor t))
      (pyInt ((start_j : ℚ) + perp_j * (t : ℚ) + wind_j * curveFactor t)) &&
      decide (acc.2 < 50) then
    (stampPlus n acc.1
      (pyInt ((start_i : ℚ) + perp_i * (t : ℚ) + wind_i * curveFactor t))
      (pyInt ((start_j : ℚ) + perp_j * (t : ℚ) + wind_j * curveFactor t)),
     acc.2 + 1)
  else acc

/-- The `max_projection` fold of `deploy_suppressants`: starting from
`(-inf, None)`, keep the burning cell with the strictly largest projection
onto the wind vector relative to the fire centroid. -/
def findFurthest (locs : List (ℤ × ℤ)) (ci cj wind_i wind_j : ℚ) :
    Option ((ℤ × ℤ) × ℚ) :=
  locs.foldl
    (fun best c =>
      let proj := ((c.1 : ℚ) - ci) * wind_i + ((c.2 : ℚ) - cj) * wind_j
      match best with
      | none => some (c, proj)
      | some bp => if bp.2 < proj then some (c, proj) else some bp)
    none

/-- The `(suppressant_grid, suppressant_count)` pair produced by one
`deploy_suppressants(wind)` call.  The wind unit vector
`(wind_i, wind_j) = (-sin(wind.direction), -cos(wind.direction))` is taken
as a pair of rational parameters (every float64 value is rational, and the
claims quantify over all of them).  The early returns of the source — budget
already spent, no burning cells, no furthest point — leave the state
unchanged. -/
def deployResult (s : FireSystem) (wind_i wind_j : ℚ) : Grid × ℕ :=
  if 50 ≤ s.suppressant_count then (s.suppressant_grid, s.suppressant_count)
  else
    let locs := burningLocations s
    if locs.length = 0 then (s.suppressant_grid, s.suppressant_count)
    else
      let center_i : ℚ := (locs.map (fun c => (c.1 : ℚ))).sum / (locs.length : ℚ)
      let center_j : ℚ := (locs.map (fun c => (c.2 : ℚ))).sum / (locs.length : ℚ)
      match findFurthest locs center_i center_j wind_i wind_j with
      | none => (s.suppressant_grid, s.suppressant_count)
      | some fp =>
        let start_i := pyInt ((fp.1.1 : ℚ) + wind_i * 12)
        let start_j := pyInt ((fp.1.2 : ℚ) + wind_j * 12)
        let perp_i := -wind_j
        let perp_j := wind_i
        (intRangeStep (-25) 26 3).foldl
          (deployPoint s.grid_size start_i start_j wind_i wind_j perp_i perp_j)
          (s.suppressant_grid, s.suppressant_count)

/-- `deploy_suppressants(wind)`: only the suppressant grid and the deployed
count are mutated. -/
def deploy_suppressants (s : FireSystem) (wind_i wind_j : ℚ) : FireSystem :=
  { s with
    suppressant_grid := (deployResult s wind_i wind_j).1
    suppressant_count := (deployResult s wind_i wind_j).2 }

/-- The operations a driver can perform on a constructed `FireSystem`. -/
inductive Op where
  | update (R : SpreadOracle)
  | start_fire (position : ℤ × ℤ) (radius : ℤ)
  | deploy (wind_i wind_j : ℚ)

/-- Apply one driver operation. -/
def applyOp (s : FireSystem) : Op → FireSystem
  | .update R => update R s
  | .start_fire p r => start_fire s p r
  | .deploy wi wj => deploy_suppressants s wi wj

/-- Apply a sequence of driver operations in order. -/
def applyOps (s : FireSystem) (ops : List Op) : FireSystem :=
  ops.foldl applyOp s

/-- The states reachable from a successful construction through any
sequence of `start_fire`, `update` and `deploy_suppressants` calls. -/
inductive Reachable : FireSystem → Prop
  | init (grid_size : ℤ) (tn mn : ℚ → ℚ → ℚ) (h : 0 ≤ grid_size) :
      Reachable (initGrids grid_size tn mn)
  | start_fire {s : FireSystem} (p : ℤ × ℤ) (r : ℤ) :
      Reachable s → Reachable (start_fire s p r)
  | update {s : FireSystem} (R : SpreadOracle) :
      Reachable s → Reachable (update R s)
  | deploy {s : FireSystem} (wind_i wind_j : ℚ) :
      Reachable s → Reachable (deploy_suppressants s wind_i wind_j)

/-- A zero noise sampler, used for concrete example states. -/
def zeroNoise : ℚ → ℚ → ℚ := fun _ _ => 0

/-- An empty 3×3 example system. -/
def cs3 : FireSystem := initGrids 3 zeroNoise zeroNoise

/-- A 3×3 system whose center cell carries suppressant and has zero fuel. -/
def suppressedNoFuel : FireSystem :=
  { grid_size := 3
    temperature_grid := fun _ _ => 0
    fuel_grid := fun _ _ => 0
    humidity_grid := fun _ _ => 0
    burning_grid := fun _ _ => 0
    suppressant_grid := fun a b => if (a, b) = ((1 : ℤ), (1 : ℤ)) then 1 else 0
    suppressant_count := 0 }

/-- A 3×3 system with one burning cell at (1, 1) holding full fuel, and a
suppressant cell at (0, 1) directly above it. -/
def bugState : FireSystem :=
  { grid_size := 3
    temperature_grid := fun a b => if (a, b) = ((1 : ℤ), (1 : ℤ)) then 800 else 0
    fuel_grid := fun _ _ => 1
    humidity_grid := fun _ _ => 0
    burning_grid := fun a b => if (a, b) = ((1 : ℤ), (1 : ℤ)) then 1 else 0
    suppressant_grid := fun a b => if (a, b) = ((0 : ℤ), (1 : ℤ)) then 1 else 0
    suppressant_count := 0 }

/-- The oracle under which every Bernoulli spread draw succeeds. -/
def alwaysSpread : SpreadOracle := fun _ _ _ _ => true

/-- An empty 2×2 system whose deployment budget is already spent. -/
def cappedState : FireSystem :=
  { grid_size := 2
    temperature_grid := fun _ _ => 0
    fuel_grid := fun _ _ => 0
    humidity_grid := fun _ _ => 0
    burning_grid := fun _ _ => 0
    suppressant_grid := fun _ _ => 0
    suppressant_count := 50 }

/-- A 3×3 system whose burning center cell is surrounded by suppressant on
all four orthogonal neighbors. -/
def surroundedState : FireSystem :=
  { grid_size := 3
    temperature_grid := fun a b => if (a, b) = ((1 : ℤ), (1 : ℤ)) then 800 else 0
    fuel_grid := fun _ _ => 1
    humidity_grid := fun _ _ => 0
    burning_grid := fun a b => if (a, b) = ((1 : ℤ), (1 : ℤ)) then 1 else 0
    suppressant_grid := fun a b =>
      if (a, b) = ((0 : ℤ), (1 : ℤ)) ∨ (a, b) = ((2 : ℤ), (1 : ℤ)) ∨
         (a, b) = ((1 : ℤ), (0 : ℤ)) ∨ (a, b) = ((1 : ℤ), (2 : ℤ)) then 1 else 0
    suppressant_count := 4 }

/-- Every cell's temperature lies between 0 and `MAX_TEMP`. -/
def TempBounded (g : Grid) : Prop :=
  ∀ a b : ℤ, 0 ≤ g a b ∧ g a b ≤ MAX_TEMP

section FoldLemmas

variable {α β : Type _}

theorem foldl_pres {P : β → Prop} {f : β → α → β}
    (h : ∀ b a, P b → P (f b a)) :
    ∀ (l : List α) (b : β), P b → P (l.foldl f b) := by
  intro l
  induction l with
  | nil => exact fun b hb => hb
  | cons x xs ih => exact fun b hb => ih (f b x) (h b x hb)

theorem foldl_estab {P : β → Prop} {f : β → α → β} {x : α}
    (hest : ∀ b, P (f b x)) (hpres : ∀ b a, P b → P (f b a)) :
    ∀ (l : List α) (b : β), x ∈ l → P (l.foldl f b) := by
  intro l
  induction l with
  | nil => intro b hx; cases hx
  | cons y ys ih =>
    intro b hx
    rcases List.mem_cons.mp hx with h | hmem
    · subst h
      exact foldl_pres hpres ys (f b x) (hest b)
    · exact ih (f b y) hmem

end FoldLemmas

theorem setCell_same (g : Grid) (i j : ℤ) (v : ℚ) : setCell g i j v i j = v := by
  simp [setCell]

theorem setCell_ne (g : Grid) (i j : ℤ) (v : ℚ) {a b : ℤ}
    (h : ¬(a = i ∧ b = j)) : setCell g i j v a b = g a b := by
  simp only [setCell, if_neg h]

theorem setCell_cases (g : Grid) (i j : ℤ) (v : ℚ) (a b : ℤ) :
    setCell g i j v a b = v ∨ setCell g i j v a b = g a b := by
  unfold setCell
  split
  · exact Or.inl rfl
  · exact Or.inr rfl

theorem mem_intRange {a b x : ℤ} : x ∈ intRange a b ↔ a ≤ x ∧ x < b := by
  unfold intRange
  rw [List.mem_map]
  constructor
  · rintro ⟨k, hk, rfl⟩
    rw [List.mem_range] at hk
    omega
  · intro h
    refine ⟨(x - a).toNat, ?_, ?_⟩
    · rw [List.mem_range]; omega
    · omega

theorem inBounds_iff {n i j : ℤ} :
    inBounds n i j = true ↔ 0 ≤ i ∧ i < n ∧ 0 ≤ j ∧ j < n := by
  simp [inBounds, and_assoc]

theorem mem_burningLocations {s : FireSystem} {c : ℤ × ℤ} :
    c ∈ burningLocations s ↔
      inBounds s.grid_size c.1 c.2 = true ∧ 0 < s.burning_grid c.1 c.2 := by
  obtain ⟨i, j⟩ := c
  simp only [burningLocations, List.mem_flatMap, List.mem_filterMap, inBounds_iff]
  constructor
  · rintro ⟨i', hi', j', hj', h⟩
    split at h
    · obtain ⟨rfl, rfl⟩ := Prod.mk.injEq .. ▸ Option.some.injEq .. ▸ h
      rcases mem_intRange.mp hi' with ⟨h1, h2⟩
      rcases mem_intRange.mp hj' with ⟨h3, h4⟩
      refine ⟨⟨h1, h2, h3, h4⟩, by assumption⟩
    · cases h
  · rintro ⟨⟨h1, h2, h3, h4⟩, hb⟩
    exact ⟨i, mem_intRange.mpr ⟨h1, h2⟩, j, mem_intRange.mpr ⟨h3, h4⟩, by
      rw [if_pos hb]⟩

/-! ### Frame lemmas: which fields each operation leaves untouched -/

theorem update_suppressant (R : SpreadOracle) (s : FireSystem) :
    (update R s).suppressant_grid = s.suppressant_grid := rfl

theorem update_humidity (R : SpreadOracle) (s : FireSystem) :
    (update R s).humidity_grid = s.humidity_grid := rfl

theorem update_grid_size (R : SpreadOracle) (s : FireSystem) :
    (update R s).grid_size = s.grid_size := rfl

theorem update_count (R : SpreadOracle) (s : FireSystem) :
    (update R s).suppressant_count = s.suppressant_count := rfl

theorem update_fuel (R : SpreadOracle) (s : FireSystem) :
    (update R s).fuel_grid = fuelAfter s := rfl

theorem deploy_temperature (s : FireSystem) (wi wj : ℚ) :
    (deploy_suppressants s wi wj).temperature_grid = s.temperature_grid := rfl

theorem deploy_burning (s : FireSystem) (wi wj : ℚ) :
    (deploy_suppressants s wi wj).burning_grid = s.burning_grid := rfl

theorem deploy_fuel (s : FireSystem) (wi wj : ℚ) :
    (deploy_suppressants s wi wj).fuel_grid = s.fuel_grid := rfl

theorem deploy_humidity (s : FireSystem) (wi wj : ℚ) :
    (deploy_suppressants s wi wj).humidity_grid = s.humidity_grid := rfl

theorem deploy_grid_size (s : FireSystem) (wi wj : ℚ) :
    (deploy_suppressants s wi wj).grid_size = s.grid_size := rfl

/-- `startFireStep` only rewrites the temperature and burning grids. -/
theorem startFireStep_frame (n x y r : ℤ) (s : FireSystem) (d : ℤ × ℤ) :
    (startFireStep n x y r s d).suppressant_grid = s.suppressant_grid ∧
    (startFireStep n x y r s d).fuel_grid = s.fuel_grid ∧
    (startFireStep n x y r s d).humidity_grid = s.humidity_grid ∧
    (startFireStep n x y r s d).grid_size = s.grid_size ∧
    (startFireStep n x y r s d).suppressant_count = s.suppressant_count := by
  unfold startFireStep
  split
  · split
    · exact ⟨rfl, rfl, rfl, rfl, rfl⟩
    · exact ⟨rfl, rfl, rfl, rfl, rfl⟩
  · exact ⟨rfl, rfl, rfl, rfl, rfl⟩

theorem start_fire_frame (s : FireSystem) (p : ℤ × ℤ) (r : ℤ) :
    (start_fire s p r).suppressant_grid = s.suppressant_grid ∧
    (start_fire s p r).fuel_grid = s.fuel_grid ∧
    (start_fire s p r).humidity_grid = s.humidity_grid ∧
    (start_fire s p r).grid_size = s.grid_size ∧
    (start_fire s p r).suppressant_count = s.suppressant_count := by
  unfold start_fire
  refine foldl_pres (P := fun (s' : FireSystem) =>
    s'.suppressant_grid = s.suppressant_grid ∧ s'.fuel_grid = s.fuel_grid ∧
    s'.humidity_grid = s.humidity_grid ∧ s'.grid_size = s.grid_size ∧
    s'.suppressant_count = s.suppressant_count) ?_ _ _
    ⟨rfl, rfl, rfl, rfl, rfl⟩
  intro s' d hP
  have hf := startFireStep_frame s.grid_size p.1 p.2 r s' d
  exact ⟨hf.1.trans hP.1, hf.2.1.trans hP.2.1, hf.2.2.1.trans hP.2.2.1,
    hf.2.2.2.1.trans hP.2.2.2.1, hf.2.2.2.2.trans hP.2.2.2.2⟩

/-! ### C4: construction with non-positive grid size -/

/-- C4 counterexample: the claim says every `grid_size ≤ 0` fails
construction, but `FireSystem(0)` succeeds: `np.zeros((0, 0))` is a legal
empty array and every loop in `__init__` runs zero iterations, so a system
object is produced. -/
theorem C4_counterexample :
    init 0 zeroNoise zeroNoise = .ok (initGrids 0 zeroNoise zeroNoise) := rfl

/-- C4 (amended): constructing the fire system with a strictly negative
grid dimension is a construction-time fatal error — `np.zeros` raises
`ValueError` for negative dimensions — while `grid_size = 0` constructs a
degenerate empty system. -/
theorem C4_negative_grid_size_errors (n : ℤ) (tn mn : ℚ → ℚ → ℚ)
    (h : n < 0) : init n tn mn = .error "negative dimensions are not allowed" := by
  simp [init, h]

/-- C4 witness: `FireSystem(-1)` fails to construct. -/
theorem C4_negative_grid_size_errors_witness :
    init (-1) zeroNoise zeroNoise = .error "negative dimensions are not allowed" :=
  C4_negative_grid_size_errors (-1) zeroNoise zeroNoise (by decide)

/-- For integers, a square bound gives an interval bound. -/
theorem sq_le_interval {u r : ℤ} (h : u * u ≤ r * r) (hr : 0 ≤ r) :
    -r ≤ u ∧ u ≤ r := by
  constructor
  · nlinarith [mul_self_nonneg (u + r)]
  · nlinarith [mul_self_nonneg (u - r)]

/-! ### C2: out-of-bounds `start_fire` -/

/-- C2 counterexample: the claim says an `start_fire` call whose top-level
position lies outside the grid signals an error; in the code the call is
total and each cell is silently bounds-checked, so igniting at
`(-100, -100)` on a 3×3 system returns normally with the state unchanged —
no error is raised. -/
theorem C2_counterexample :
    start_fire cs3 ((-100 : ℤ), (-100 : ℤ)) 2 = cs3 := rfl

/-- C2 (amended): `start_fire` does not validate its top-level position; the
call signals no error for any position (it is a total function) and every
cell outside the grid is silently skipped — its temperature and burning
entries are never written. -/
theorem C2_start_fire_silently_skips (s : FireSystem) (p : ℤ × ℤ) (r : ℤ)
    (a b : ℤ) (h : inBounds s.grid_size a b = false) :
    (start_fire s p r).temperature_grid a b = s.temperature_grid a b ∧
    (start_fire s p r).burning_grid a b = s.burning_grid a b := by
  unfold start_fire
  refine foldl_pres (P := fun (s' : FireSystem) =>
    s'.temperature_grid a b = s.temperature_grid a b ∧
    s'.burning_grid a b = s.burning_grid a b) ?_ _ _ ⟨rfl, rfl⟩
  intro s' d hP
  unfold startFireStep
  split
  · split
    case isTrue hin =>
      have hne : ¬(a = p.1 + d.1 ∧ b = p.2 + d.2) := by
        rintro ⟨rfl, rfl⟩
        rw [h] at hin
        cases hin
      exact ⟨(setCell_ne _ _ _ _ hne).trans hP.1,
             (setCell_ne _ _ _ _ hne).trans hP.2⟩
    case isFalse _ => exact hP
  · exact hP

/-- C2 witness: on a 3×3 system, cell (5, 5) is out of bounds and is left
untouched by an ignition at the origin. -/
theorem C2_start_fire_silently_skips_witness :
    (start_fire cs3 (0, 0) 1).temperature_grid 5 5 = cs3.temperature_grid 5 5 ∧
    (start_fire cs3 (0, 0) 1).burning_grid 5 5 = cs3.burning_grid 5 5 :=
  C2_start_fire_silently_skips cs3 (0, 0) 1 5 5 (by decide)

/-! ### C10: `start_fire` ignites unconditionally -/

/-- C10: `start_fire` sets `burning = 1.0` and `temperature = MAX_TEMP` on
every in-bounds cell within the Euclidean radius of the position,
unconditionally — the cell's suppressant flag and fuel are not consulted
(and are left unchanged), so a suppressed or fuel-less cell is set burning
all the same. -/
theorem C10_start_fire_unconditional (s : FireSystem) (x y r a b : ℤ)
    (hr : 0 ≤ r) (hin : inBounds s.grid_size a b = true)
    (hd : (a - x) * (a - x) + (b - y) * (b - y) ≤ r * r) :
    (start_fire s (x, y) r).burning_grid a b = 1 ∧
    (start_fire s (x, y) r).temperature_grid a b = MAX_TEMP ∧
    (start_fire s (x, y) r).suppressant_grid a b = s.suppressant_grid a b ∧
    (start_fire s (x, y) r).fuel_grid a b = s.fuel_grid a b := by
  have key : (start_fire s (x, y) r).burning_grid a b = 1 ∧
      (start_fire s (x, y) r).temperature_grid a b = MAX_TEMP := by
    have hdx : (a - x) * (a - x) ≤ r * r := by nlinarith [mul_self_nonneg (b - y)]
    have hdy : (b - y) * (b - y) ≤ r * r := by nlinarith [mul_self_nonneg (a - x)]
    have hbx := sq_le_interval hdx hr
    have hby := sq_le_interval hdy hr
    unfold start_fire
    refine foldl_estab (P := fun (s' : FireSystem) =>
      s'.burning_grid a b = 1 ∧ s'.temperature_grid a b = MAX_TEMP)
      (x := (a - x, b - y)) ?_ ?_ _ _ ?_
    · intro s'
      unfold startFireStep
      dsimp only
      rw [if_pos hd]
      have e1 : x + (a - x) = a := by ring
      have e2 : y + (b - y) = b := by ring
      simp only [e1, e2]
      rw [if_pos hin]
      exact ⟨setCell_same .., setCell_same ..⟩
    · intro s' d hP
      unfold startFireStep
      dsimp only
      split
      · split
        · constructor
          · show setCell s'.burning_grid (x + d.1) (y + d.2) 1 a b = 1
            rcases setCell_cases s'.burning_grid (x + d.1) (y + d.2) 1 a b with
              hc | hc
            · exact hc
            · rw [hc]; exact hP.1
          · show setCell s'.temperature_grid (x + d.1) (y + d.2) MAX_TEMP a b =
              MAX_TEMP
            rcases setCell_cases s'.temperature_grid (x + d.1) (y + d.2)
              MAX_TEMP a b with hc | hc
            · exact hc
            · rw [hc]; exact hP.2
        · exact hP
      · exact hP
    · rw [List.mem_flatMap]
      refine ⟨a - x, mem_intRange.mpr ⟨hbx.1, by omega⟩, ?_⟩
      rw [List.mem_map]
      exact ⟨b - y, mem_intRange.mpr ⟨hby.1, by omega⟩, rfl⟩
  have hf := start_fire_frame s (x, y) r
  exact ⟨key.1, key.2, by rw [hf.1], by rw [hf.2.1]⟩

/-- C10 witness: igniting the suppressed, fuel-less center cell sets it
burning at `MAX_TEMP` while its suppressant flag and fuel stay put. -/
theorem C10_start_fire_unconditional_witness :
    (start_fire suppressedNoFuel (1, 1) 0).burning_grid 1 1 = 1 ∧
    (start_fire suppressedNoFuel (1, 1) 0).temperature_grid 1 1 = MAX_TEMP ∧
    (start_fire suppressedNoFuel (1, 1) 0).suppressant_grid 1 1 =
      suppressedNoFuel.suppressant_grid 1 1 ∧
    (start_fire suppressedNoFuel (1, 1) 0).fuel_grid 1 1 =
      suppressedNoFuel.fuel_grid 1 1 :=
  C10_start_fire_unconditional suppressedNoFuel 1 1 0 1 1 (by decide) (by decide)
    (by decide)

/-! ### C1: a suppression-extinguished cell still spreads this tick -/

unseal Rat.sub Rat.add Rat.mul Rat.inv Rat.ofScientific in
/-- C1 (code-bug evidence): on `bugState` the cell (1, 1) is extinguished by
the suppression check of step 1 (suppressant at (0, 1)), so the set of cells
still burning after steps 1–2 is empty; yet the second loop of `update`
iterates the pre-tick burning grid and only tests fuel, so `_spread_fire` is
still evaluated from (1, 1) — and with every draw succeeding, the tick both
extinguishes (1, 1) and ignites its diagonal neighbor (2, 2) from it.  The
spread-source set `[(1, 1)]` differs from the post-steps-1–2 burning set
`[]`, contradicting the claim. -/
theorem C1_extinguished_cell_still_spreads :
    spreadSources bugState = [(1, 1)] ∧
    stillBurningAfterSteps12 bugState = [] ∧
    (update alwaysSpread bugState).burning_grid 1 1 = 0 ∧
    (update alwaysSpread bugState).burning_grid 2 2 = 1 := by
  set_option maxRecDepth 10000 in decide

/-! ### C8: fuel monotonicity -/

/-- C8: under one `update` call a cell's fuel never increases and stays
non-negative (given the data-model invariant that it was non-negative), and
neither `start_fire` nor `deploy_suppressants` ever touches fuel. -/
theorem C8_fuel_monotone (s : FireSystem) (R : SpreadOracle) (p : ℤ × ℤ)
    (r : ℤ) (wi wj : ℚ) (a b : ℤ) (h : 0 ≤ s.fuel_grid a b) :
    ((update R s).fuel_grid a b ≤ s.fuel_grid a b ∧
      0 ≤ (update R s).fuel_grid a b) ∧
    (start_fire s p r).fuel_grid a b = s.fuel_grid a b ∧
    (deploy_suppressants s wi wj).fuel_grid a b = s.fuel_grid a b := by
  refine ⟨?_, by rw [(start_fire_frame s p r).2.1], by rw [deploy_fuel]⟩
  rw [update_fuel]
  unfold fuelAfter pymax
  split
  · rcases le_or_lt (s.fuel_grid a b - FUEL_CONSUMPTION_RATE) 0 with hle | hgt
    · rw [if_pos hle]
      exact ⟨h, le_refl 0⟩
    · rw [if_neg (not_le.mpr hgt)]
      have hrate : (0 : ℚ) < FUEL_CONSUMPTION_RATE := by
        norm_num [FUEL_CONSUMPTION_RATE]
      exact ⟨by linarith, le_of_lt hgt⟩
  · exact ⟨le_refl _, h⟩

/-- C8 witness: the burning cell of `bugState` loses fuel but stays at a
non-negative level, and the other operations leave its fuel alone. -/
theorem C8_fuel_monotone_witness :
    ((update alwaysSpread bugState).fuel_grid 1 1 ≤ bugState.fuel_grid 1 1 ∧
      0 ≤ (update alwaysSpread bugState).fuel_grid 1 1) ∧
    (start_fire bugState (0, 0) 0).fuel_grid 1 1 = bugState.fuel_grid 1 1 ∧
    (deploy_suppressants bugState 0 0).fuel_grid 1 1 = bugState.fuel_grid 1 1 :=
  C8_fuel_monotone bugState alwaysSpread (0, 0) 0 0 0 1 1 (by decide)

/-! ### C9: suppressant permanence -/

/-- Stamping a plus pattern writes only the value 1, so a cell already at 1
stays at 1. -/
theorem stampPlus_keeps_one (n : ℤ) (g : Grid) (x y a b : ℤ) (h : g a b = 1) :
    stampPlus n g x y a b = 1 := by
  unfold stampPlus
  refine foldl_pres (P := fun (g' : Grid) => g' a b = 1) ?_ _ _ h
  intro g' d hP
  split
  · rcases setCell_cases g' (x + d.1) (y + d.2) 1 a b with hc | hc
    · exact hc
    · rw [hc]; exact hP
  · exact hP

/-- One deployment-loop iteration never clears a suppressant flag. -/
theorem deployPoint_keeps_one (n si sj : ℤ) (wi wj q1 q2 : ℚ)
    (acc : Grid × ℕ) (t : ℤ) (a b : ℤ) (h : acc.1 a b = 1) :
    (deployPoint n si sj wi wj q1 q2 acc t).1 a b = 1 := by
  simp only [deployPoint]
  split
  · exact stampPlus_keeps_one n acc.1 _ _ a b h
  · exact h

/-- `deploy_suppressants` never clears a suppressant flag. -/
theorem deployResult_keeps_one (s : FireSystem) (wi wj : ℚ) (a b : ℤ)
    (h : s.suppressant_grid a b = 1) : (deployResult s wi wj).1 a b = 1 := by
  simp only [deployResult]
  split
  · exact h
  · split
    · exact h
    · split
      · exact h
      · refine foldl_pres (P := fun (acc : Grid × ℕ) => acc.1 a b = 1) ?_ _ _ h
        intro acc t hP
        exact deployPoint_keeps_one _ _ _ _ _ _ _ acc t a b hP

/-- No single driver operation clears a suppressant flag. -/
theorem applyOp_keeps_one (s : FireSystem) (op : Op) (a b : ℤ)
    (h : s.suppressant_grid a b = 1) :
    (applyOp s op).suppressant_grid a b = 1 := by
  cases op with
  | update R =>
    rw [show applyOp s (Op.update R) = update R s from rfl, update_suppressant]
    exact h
  | start_fire p r =>
    rw [show applyOp s (Op.start_fire p r) = start_fire s p r from rfl,
      (start_fire_frame s p r).1]
    exact h
  | deploy wi wj => exact deployResult_keeps_one s wi wj a b h

/-- C9: suppressant permanence — once a cell's suppressant flag is set
(value 1.0), no sequence of `update`, `start_fire` and `deploy_suppressants`
calls ever clears it. -/
theorem C9_suppressant_permanence (s : FireSystem) (ops : List Op) (a b : ℤ)
    (h : s.suppressant_grid a b = 1) :
    (applyOps s ops).suppressant_grid a b = 1 := by
  induction ops generalizing s with
  | nil => exact h
  | cons op rest ih => exact ih (applyOp s op) (applyOp_keeps_one s op a b h)

/-- C9 witness: the suppressed center cell survives an update, an ignition
and a deployment. -/
theorem C9_suppressant_permanence_witness :
    (applyOps suppressedNoFuel
      [Op.update alwaysSpread, Op.start_fire (0, 0) 1,
        Op.deploy 0 0]).suppressant_grid 1 1 = 1 :=
  C9_suppressant_permanence suppressedNoFuel
    [Op.update alwaysSpread, Op.start_fire (0, 0) 1, Op.deploy 0 0] 1 1
    (by decide)

/-! ### C7: deployment budget -/

/-- One deployment-loop iteration either leaves the count alone or — only
when the budget check `suppressant_count < 50` passed — increments it by
exactly 1, regardless of how many cells the plus pattern touched. -/
theorem deployPoint_count (n si sj : ℤ) (wi wj q1 q2 : ℚ)
    (acc : Grid × ℕ) (t : ℤ) :
    (deployPoint n si sj wi wj q1 q2 acc t).2 = acc.2 ∨
      ((deployPoint n si sj wi wj q1 q2 acc t).2 = acc.2 + 1 ∧ acc.2 < 50) := by
  simp only [deployPoint]
  split
  case isTrue hcond =>
    right
    refine ⟨rfl, ?_⟩
    have h2 := (Bool.and_eq_true _ _).mp hcond
    exact of_decide_eq_true h2.2
  case isFalse _ => left; rfl

/-- The deployed count after one call is bounded by the larger of the old
count and the cap 50. -/
theorem deployResult_count_le (s : FireSystem) (wi wj : ℚ) :
    (deployResult s wi wj).2 ≤ max s.suppressant_count 50 := by
  simp only [deployResult]
  split
  · exact le_max_left _ _
  · split
    · exact le_max_left _ _
    · split
      · exact le_max_left _ _
      · refine foldl_pres
          (P := fun (acc : Grid × ℕ) => acc.2 ≤ max s.suppressant_count 50)
          ?_ _ _ (le_max_left _ _)
        intro acc t hP
        rcases deployPoint_count s.grid_size _ _ wi wj _ _ acc t with hc | ⟨hc, hlt⟩
        · rw [hc]; exact hP
        · rw [hc]
          exact le_trans hlt (le_max_right _ _)

/-- C7: `deploy_suppressants` respects the deployment budget: a call at or
above the cap of 50 is a defined no-op (state returned unchanged, no
error); each line point increments the count by exactly 1 or not at all, no
matter how many cells its plus pattern stamps; and any sequence of calls
starting at or below the cap stays at or below it. -/
theorem C7_deployment_budget (s : FireSystem) (wi wj : ℚ)
    (ps : List (ℚ × ℚ)) :
    (50 ≤ s.suppressant_count → deploy_suppressants s wi wj = s) ∧
    (deploy_suppressants s wi wj).suppressant_count ≤
      max s.suppressant_count 50 ∧
    (∀ (n si sj : ℤ) (w1 w2 q1 q2 : ℚ) (acc : Grid × ℕ) (t : ℤ),
      (deployPoint n si sj w1 w2 q1 q2 acc t).2 = acc.2 ∨
        ((deployPoint n si sj w1 w2 q1 q2 acc t).2 = acc.2 + 1 ∧ acc.2 < 50)) ∧
    (s.suppressant_count ≤ 50 →
      (ps.foldl (fun s' p => deploy_suppressants s' p.1 p.2)
        s).suppressant_count ≤ 50) := by
  refine ⟨?_, deployResult_count_le s wi wj, deployPoint_count, ?_⟩
  · intro h
    show FireSystem.mk _ _ _ _ _ _ _ = s
    unfold deployResult
    rw [if_pos h]
  · intro h
    induction ps generalizing s with
    | nil => exact h
    | cons p rest ih =>
      refine ih _ ?_
      have hle := deployResult_count_le s p.1 p.2
      have hmax : max s.suppressant_count 50 = 50 := max_eq_right h
      rw [hmax] at hle
      exact hle

/-- C7 witness: at the cap the call is a no-op and the count never exceeds
50, also along a sequence of calls. -/
theorem C7_deployment_budget_witness :
    deploy_suppressants cappedState 0 0 = cappedState ∧
    (deploy_suppressants cappedState 0 0).suppressant_count ≤
      max cappedState.suppressant_count 50 ∧
    ((deployPoint 2 0 0 0 0 0 0 (fun _ _ => 0, 0) 0).2 = 0 ∨
      ((deployPoint 2 0 0 0 0 0 0 (fun _ _ => 0, 0) 0).2 = 0 + 1 ∧ 0 < 50)) ∧
    ([((0 : ℚ), (0 : ℚ))].foldl (fun s' p => deploy_suppressants s' p.1 p.2)
      cappedState).suppressant_count ≤ 50 := by
  have h := C7_deployment_budget cappedState 0 0 [(0, 0)]
  exact ⟨h.1 (by decide), h.2.1,
    h.2.2.1 2 0 0 0 0 0 0 (fun _ _ => 0, 0) 0, h.2.2.2 (by decide)⟩

/-! ### C5: suppression blocks ignition -/

theorem roundHalfEven_intCast (z : ℤ) : roundHalfEven (z : ℚ) = z := by
  unfold roundHalfEven
  rw [Int.floor_intCast]
  norm_num

/-- The last `np.linspace` sample point is the target cell itself, so a
suppressed target always trips `_check_suppressant_line`. -/
theorem check_line_endpoint (s : FireSystem) (i1 j1 i2 j2 : ℤ)
    (h : s.suppressant_grid i2 j2 ≠ 0) :
    check_suppressant_line s i1 j1 i2 j2 = true := by
  unfold check_suppressant_line
  rw [List.any_eq_true]
  refine ⟨4, by simp [List.mem_range], ?_⟩
  have e1 : (i1 : ℚ) + ((4 : ℕ) : ℚ) * ((i2 : ℚ) - (i1 : ℚ)) / 4 = ((i2 : ℤ) : ℚ) := by
    push_cast; ring
  have e2 : (j1 : ℚ) + ((4 : ℕ) : ℚ) * ((j2 : ℚ) - (j1 : ℚ)) / 4 = ((j2 : ℤ) : ℚ) := by
    push_cast; ring
  show decide (s.suppressant_grid _ _ ≠ 0) = true
  rw [e1, e2, roundHalfEven_intCast, roundHalfEven_intCast]
  exact decide_eq_true h

/-- A single spread iteration never sets a suppressed cell burning. -/
theorem spreadStep_suppressed (s : FireSystem) (R : SpreadOracle) (i j : ℤ)
    (tb : Grid × Grid) (d : ℤ × ℤ) (a b : ℤ)
    (hsupp : s.suppressant_grid a b ≠ 0) (hb : tb.2 a b = 0) :
    (spreadStep s R i j tb d).2 a b = 0 := by
  unfold spreadStep
  split
  · exact hb
  · split
    · exact hb
    · split
      · exact hb
      · split
        · rename_i hline hcond
          split
          · show setCell tb.2 (i + d.1) (j + d.2) 1 a b = 0
            have hne : ¬(a = i + d.1 ∧ b = j + d.2) := by
              rintro ⟨rfl, rfl⟩
              exact hline (check_line_endpoint s i j _ _ hsupp)
            rw [setCell_ne _ _ _ _ hne]
            exact hb
          · exact hb
        · exact hb

/-- The whole 8-neighbor spread loop never sets a suppressed cell
burning. -/
theorem spread_fire_suppressed (s : FireSystem) (R : SpreadOracle) (i j : ℤ)
    (tb : Grid × Grid) (a b : ℤ) (hsupp : s.suppressant_grid a b ≠ 0)
    (hb : tb.2 a b = 0) : (spread_fire s R i j tb).2 a b = 0 := by
  unfold spread_fire
  refine foldl_pres (P := fun (tb' : Grid × Grid) => tb'.2 a b = 0) ?_ _ _ hb
  intro tb' d hP
  exact spreadStep_suppressed s R i j tb' d a b hsupp hP

/-- The burning component of a second-loop iteration is unaffected by the
cooling step. -/
theorem burnSpreadStep_burning (s : FireSystem) (R : SpreadOracle)
    (tb : Grid × Grid) (c : ℤ × ℤ) :
    (burnSpreadStep s R tb c).2 = (burnOrSpread s R tb c).2 := by
  unfold burnSpreadStep
  split
  · rfl
  · rfl

/-- One `update` call leaves the burning flag of an unburnt suppressed cell
at 0. -/
theorem update_suppressed_stays_unburnt (s : FireSystem) (R : SpreadOracle)
    (a b : ℤ) (hsupp : s.suppressant_grid a b ≠ 0)
    (hb : s.burning_grid a b = 0) : (update R s).burning_grid a b = 0 := by
  show (updatedTB R s).2 a b = 0
  unfold updatedTB
  have h0 : ((burningLocations s).foldl (suppressionStep s)
      (s.temperature_grid, s.burning_grid)).2 a b = 0 := by
    refine foldl_pres (P := fun (tb : Grid × Grid) => tb.2 a b = 0) ?_ _ _ hb
    intro tb c hP
    unfold suppressionStep
    split
    · show setCell tb.2 c.1 c.2 0 a b = 0
      rcases setCell_cases tb.2 c.1 c.2 0 a b with hc | hc
      · exact hc
      · rw [hc]; exact hP
    · exact hP
  refine foldl_pres (P := fun (tb : Grid × Grid) => tb.2 a b = 0) ?_ _ _ h0
  intro tb c hP
  rw [burnSpreadStep_burning]
  unfold burnOrSpread
  split
  · show setCell tb.2 c.1 c.2 0 a b = 0
    rcases setCell_cases tb.2 c.1 c.2 0 a b with hc | hc
    · exact hc
    · rw [hc]; exact hP
  · exact spread_fire_suppressed s R c.1 c.2 tb a b hsupp hP

/-- C5: a cell with its suppressant flag set (value 1.0) and not burning
never transitions to burning across any sequence of `update` calls,
regardless of the neighbors' burning state, the wind, or the random draws
(the oracles are arbitrary). -/
theorem C5_suppression_blocks_ignition (s : FireSystem)
    (Rs : List SpreadOracle) (a b : ℤ)
    (hsupp : s.suppressant_grid a b = 1) (hb : s.burning_grid a b = 0) :
    (Rs.foldl (fun s' R => update R s') s).burning_grid a b = 0 := by
  induction Rs generalizing s with
  | nil => exact hb
  | cons R rest ih =>
    refine ih (update R s) ?_ ?_
    · rw [update_suppressant]; exact hsupp
    · exact update_suppressed_stays_unburnt s R a b
        (by rw [hsupp]; exact one_ne_zero) hb

/-- C5 witness: the suppressed center cell of a 3×3 system stays unburnt
through a tick in which every spread draw succeeds. -/
theorem C5_suppression_blocks_ignition_witness :
    ([alwaysSpread].foldl (fun s' R => update R s')
      suppressedNoFuel).burning_grid 1 1 = 0 :=
  C5_suppression_blocks_ignition suppressedNoFuel [alwaysSpread] 1 1
    (by decide) (by decide)

/-! ### C6: a burning cell surrounded by suppressant is extinguished -/

theorem setCell_eq_cases (g : Grid) (i j : ℤ) (v : ℚ) (a b : ℤ) :
    (a = i ∧ b = j ∧ setCell g i j v a b = v) ∨ setCell g i j v a b = g a b := by
  unfold setCell
  split
  case isTrue h => exact Or.inl ⟨h.1, h.2, rfl⟩
  case isFalse _ => exact Or.inr rfl

/-- The spread loop writes only to targets that were not burning at the
start of the tick, so it leaves every pre-tick-burning cell's entries
alone. -/
theorem spreadStep_old_burning (s : FireSystem) (R : SpreadOracle) (i j : ℤ)
    (tb : Grid × Grid) (d : ℤ × ℤ) (a b : ℤ)
    (hb : 0 < s.burning_grid a b) :
    (spreadStep s R i j tb d).1 a b = tb.1 a b ∧
    (spreadStep s R i j tb d).2 a b = tb.2 a b := by
  unfold spreadStep
  split
  · exact ⟨rfl, rfl⟩
  · split
    · exact ⟨rfl, rfl⟩
    · split
      · exact ⟨rfl, rfl⟩
      · split
        · rename_i hcond
          have hzero : s.burning_grid (i + d.1) (j + d.2) = 0 :=
            of_decide_eq_true ((Bool.and_eq_true _ _).mp hcond).2
          have hne : ¬(a = i + d.1 ∧ b = j + d.2) := by
            rintro ⟨rfl, rfl⟩
            rw [hzero] at hb
            exact lt_irrefl 0 hb
          split
          · exact ⟨setCell_ne _ _ _ _ hne, setCell_ne _ _ _ _ hne⟩
          · exact ⟨setCell_ne _ _ _ _ hne, rfl⟩
        · exact ⟨rfl, rfl⟩

/-- `_spread_fire` leaves every pre-tick-burning cell's entries alone. -/
theorem spread_fire_old_burning (s : FireSystem) (R : SpreadOracle)
    (i j : ℤ) (tb : Grid × Grid) (a b : ℤ) (hb : 0 < s.burning_grid a b) :
    (spread_fire s R i j tb).1 a b = tb.1 a b ∧
    (spread_fire s R i j tb).2 a b = tb.2 a b := by
  unfold spread_fire
  refine foldl_pres (P := fun (tb' : Grid × Grid) =>
    tb'.1 a b = tb.1 a b ∧ tb'.2 a b = tb.2 a b) ?_ _ _ ⟨rfl, rfl⟩
  intro tb' d hP
  have h := spreadStep_old_burning s R i j tb' d a b hb
  exact ⟨h.1.trans hP.1, h.2.trans hP.2⟩

/-- The cooling subtraction never drops an extinguished cell below ambient:
cooling an ambient cell leaves it ambient. -/
theorem pymax_ambient_cooling : pymax AMBIENT_TEMP (AMBIENT_TEMP - COOLING_RATE) =
    AMBIENT_TEMP := by
  unfold pymax
  rw [if_pos]
  have : (0 : ℚ) < COOLING_RATE := by norm_num [COOLING_RATE]
  linarith

/-- C6: a burning cell all four of whose orthogonal neighbors are in bounds
and carry suppressant is extinguished by one `update` call: its burning
flag drops to 0 and its temperature to exactly `AMBIENT_TEMP`, for every
wind state and every outcome of the random draws. -/
theorem C6_surrounded_cell_extinguished (s : FireSystem) (R : SpreadOracle)
    (a b : ℤ) (hin : inBounds s.grid_size a b = true)
    (hb : 0 < s.burning_grid a b)
    (hn : ∀ d ∈ orthNeighbors,
      inBounds s.grid_size (a + d.1) (b + d.2) = true ∧
      s.suppressant_grid (a + d.1) (b + d.2) = 1) :
    (update R s).burning_grid a b = 0 ∧
    (update R s).temperature_grid a b = AMBIENT_TEMP := by
  have hmem : (a, b) ∈ burningLocations s := mem_burningLocations.mpr ⟨hin, hb⟩
  have hsup : hasSuppressantNeighbor s a b = true := by
    unfold hasSuppressantNeighbor
    rw [List.any_eq_true]
    refine ⟨(0, 1), by simp [orthNeighbors], ?_⟩
    have h01 := hn (0, 1) (by simp [orthNeighbors])
    rw [Bool.and_eq_true]
    exact ⟨h01.1, decide_eq_true (by rw [h01.2]; norm_num)⟩
  have key : ((updatedTB R s).1 a b = AMBIENT_TEMP ∧ (updatedTB R s).2 a b = 0) := by
    unfold updatedTB
    have h1 : (((burningLocations s).foldl (suppressionStep s)
        (s.temperature_grid, s.burning_grid)).1 a b = AMBIENT_TEMP ∧
        ((burningLocations s).foldl (suppressionStep s)
        (s.temperature_grid, s.burning_grid)).2 a b = 0) := by
      refine foldl_estab (P := fun (tb : Grid × Grid) =>
        tb.1 a b = AMBIENT_TEMP ∧ tb.2 a b = 0) (x := (a, b)) ?_ ?_ _ _ hmem
      · intro tb
        unfold suppressionStep
        rw [if_pos hsup]
        exact ⟨setCell_same .., setCell_same ..⟩
      · intro tb c hP
        unfold suppressionStep
        split
        · constructor
          · show setCell tb.1 c.1 c.2 AMBIENT_TEMP a b = AMBIENT_TEMP
            rcases setCell_cases tb.1 c.1 c.2 AMBIENT_TEMP a b with hc | hc
            · exact hc
            · rw [hc]; exact hP.1
          · show setCell tb.2 c.1 c.2 0 a b = 0
            rcases setCell_cases tb.2 c.1 c.2 0 a b with hc | hc
            · exact hc
            · rw [hc]; exact hP.2
        · exact hP
    refine foldl_pres (P := fun (tb : Grid × Grid) =>
      tb.1 a b = AMBIENT_TEMP ∧ tb.2 a b = 0) ?_ _ _ h1
    intro tb c hP
    have hbo : (burnOrSpread s R tb c).1 a b = AMBIENT_TEMP ∧
        (burnOrSpread s R tb c).2 a b = 0 := by
      unfold burnOrSpread
      split
      · constructor
        · show setCell tb.1 c.1 c.2 AMBIENT_TEMP a b = AMBIENT_TEMP
          rcases setCell_cases tb.1 c.1 c.2 AMBIENT_TEMP a b with hc | hc
          · exact hc
          · rw [hc]; exact hP.1
        · show setCell tb.2 c.1 c.2 0 a b = 0
          rcases setCell_cases tb.2 c.1 c.2 0 a b with hc | hc
          · exact hc
          · rw [hc]; exact hP.2
      · have h := spread_fire_old_burning s R c.1 c.2 tb a b hb
        exact ⟨h.1.trans hP.1, h.2.trans hP.2⟩
    unfold burnSpreadStep
    split
    · constructor
      · show setCell (burnOrSpread s R tb c).1 c.1 c.2
          (pymax AMBIENT_TEMP ((burnOrSpread s R tb c).1 c.1 c.2 - COOLING_RATE))
          a b = AMBIENT_TEMP
        rcases setCell_eq_cases (burnOrSpread s R tb c).1 c.1 c.2
          (pymax AMBIENT_TEMP ((burnOrSpread s R tb c).1 c.1 c.2 - COOLING_RATE))
          a b with ⟨ha, hbb, hc⟩ | hc
        · rw [hc, ← ha, ← hbb, hbo.1, pymax_ambient_cooling]
        · rw [hc]; exact hbo.1
      · exact hbo.2
    · exact hbo
  exact ⟨key.2, key.1⟩

/-- C6 witness: the surrounded center cell is extinguished to ambient in one
tick with every draw succeeding. -/
theorem C6_surrounded_cell_extinguished_witness :
    (update alwaysSpread surroundedState).burning_grid 1 1 = 0 ∧
    (update alwaysSpread surroundedState).temperature_grid 1 1 = AMBIENT_TEMP :=
  C6_surrounded_cell_extinguished surroundedState alwaysSpread 1 1 (by decide)
    (by decide) (by decide)

/-! ### C3: temperature bounds over all reachable states -/

/-- C3 counterexample: a freshly constructed system is reachable and all its
temperatures are 0, strictly below `AMBIENT_TEMP = 25` — the claimed lower
bound `AMBIENT_TEMP ≤ temperature[i,j]` fails right after `__init__`, whose
temperature grid is `np.zeros`. -/
theorem C3_counterexample :
    Reachable (initGrids 1 zeroNoise zeroNoise) ∧
    (initGrids 1 zeroNoise zeroNoise).temperature_grid 0 0 < AMBIENT_TEMP :=
  ⟨Reachable.init 1 zeroNoise zeroNoise (by norm_num),
   by show (0 : ℚ) < AMBIENT_TEMP; norm_num [AMBIENT_TEMP]⟩

/-- The spread heating `min(MAX_TEMP, t + 300)` keeps temperatures in
`[0, MAX_TEMP]`. -/
theorem pymin_spread_bounds {v : ℚ} (h0 : 0 ≤ v) :
    0 ≤ pymin MAX_TEMP (v + 300) ∧ pymin MAX_TEMP (v + 300) ≤ MAX_TEMP := by
  unfold pymin
  split
  case isTrue _ => exact ⟨by norm_num [MAX_TEMP], le_refl _⟩
  case isFalse hf =>
    constructor
    · linarith
    · have := lt_of_not_le hf
      linarith

/-- The cooling `max(AMBIENT_TEMP, t − COOLING_RATE)` keeps temperatures in
`[0, MAX_TEMP]`. -/
theorem pymax_cooling_bounds {v : ℚ} (hM : v ≤ MAX_TEMP) :
    0 ≤ pymax AMBIENT_TEMP (v - COOLING_RATE) ∧
    pymax AMBIENT_TEMP (v - COOLING_RATE) ≤ MAX_TEMP := by
  unfold pymax
  have hc : (0 : ℚ) < COOLING_RATE := by norm_num [COOLING_RATE]
  split
  case isTrue _ => exact ⟨by norm_num [AMBIENT_TEMP], by norm_num [AMBIENT_TEMP, MAX_TEMP]⟩
  case isFalse hf =>
    have := lt_of_not_le hf
    constructor
    · have h25 : (0 : ℚ) < AMBIENT_TEMP := by norm_num [AMBIENT_TEMP]
      linarith
    · linarith

theorem spreadStep_temp_bounded (s : FireSystem) (R : SpreadOracle) (i j : ℤ)
    (tb : Grid × Grid) (d : ℤ × ℤ) (h : TempBounded tb.1) :
    TempBounded (spreadStep s R i j tb d).1 := by
  unfold spreadStep
  split
  · exact h
  · split
    · exact h
    · split
      · exact h
      · split
        · have hw : TempBounded (setCell tb.1 (i + d.1) (j + d.2)
              (pymin MAX_TEMP (tb.1 (i + d.1) (j + d.2) + 300))) := by
            intro a b
            rcases setCell_eq_cases tb.1 (i + d.1) (j + d.2)
              (pymin MAX_TEMP (tb.1 (i + d.1) (j + d.2) + 300)) a b with
              ⟨_, _, hc⟩ | hc
            · rw [hc]
              exact pymin_spread_bounds (h (i + d.1) (j + d.2)).1
            · rw [hc]
              exact h a b
          split
          · exact hw
          · exact hw
        · exact h

theorem spread_fire_temp_bounded (s : FireSystem) (R : SpreadOracle)
    (i j : ℤ) (tb : Grid × Grid) (h : TempBounded tb.1) :
    TempBounded (spread_fire s R i j tb).1 := by
  unfold spread_fire
  refine foldl_pres (P := fun (tb' : Grid × Grid) => TempBounded tb'.1) ?_ _ _ h
  intro tb' d hP
  exact spreadStep_temp_bounded s R i j tb' d hP

theorem suppressionStep_temp_bounded (s : FireSystem) (tb : Grid × Grid)
    (c : ℤ × ℤ) (h : TempBounded tb.1) :
    TempBounded (suppressionStep s tb c).1 := by
  unfold suppressionStep
  split
  · intro a b
    show 0 ≤ setCell tb.1 c.1 c.2 AMBIENT_TEMP a b ∧
      setCell tb.1 c.1 c.2 AMBIENT_TEMP a b ≤ MAX_TEMP
    rcases setCell_eq_cases tb.1 c.1 c.2 AMBIENT_TEMP a b with ⟨_, _, hc⟩ | hc
    · rw [hc]
      norm_num [AMBIENT_TEMP, MAX_TEMP]
    · rw [hc]
      exact h a b
  · exact h

theorem burnSpreadStep_temp_bounded (s : FireSystem) (R : SpreadOracle)
    (tb : Grid × Grid) (c : ℤ × ℤ) (h : TempBounded tb.1) :
    TempBounded (burnSpreadStep s R tb c).1 := by
  have hbo : TempBounded (burnOrSpread s R tb c).1 := by
    unfold burnOrSpread
    split
    · intro a b
      show 0 ≤ setCell tb.1 c.1 c.2 AMBIENT_TEMP a b ∧
        setCell tb.1 c.1 c.2 AMBIENT_TEMP a b ≤ MAX_TEMP
      rcases setCell_eq_cases tb.1 c.1 c.2 AMBIENT_TEMP a b with ⟨_, _, hc⟩ | hc
      · rw [hc]
        norm_num [AMBIENT_TEMP, MAX_TEMP]
      · rw [hc]
        exact h a b
    · exact spread_fire_temp_bounded s R c.1 c.2 tb h
  unfold burnSpreadStep
  split
  · intro a b
    show 0 ≤ setCell (burnOrSpread s R tb c).1 c.1 c.2
        (pymax AMBIENT_TEMP ((burnOrSpread s R tb c).1 c.1 c.2 - COOLING_RATE))
        a b ∧
      setCell (burnOrSpread s R tb c).1 c.1 c.2
        (pymax AMBIENT_TEMP ((burnOrSpread s R tb c).1 c.1 c.2 - COOLING_RATE))
        a b ≤ MAX_TEMP
    rcases setCell_eq_cases (burnOrSpread s R tb c).1 c.1 c.2
      (pymax AMBIENT_TEMP ((burnOrSpread s R tb c).1 c.1 c.2 - COOLING_RATE))
      a b with ⟨_, _, hc⟩ | hc
    · rw [hc]
      exact pymax_cooling_bounds (hbo c.1 c.2).2
    · rw [hc]
      exact hbo a b
  · exact hbo

theorem update_temp_bounded (R : SpreadOracle) (s : FireSystem)
    (h : TempBounded s.temperature_grid) :
    TempBounded (update R s).temperature_grid := by
  show TempBounded (updatedTB R s).1
  unfold updatedTB
  refine foldl_pres (P := fun (tb : Grid × Grid) => TempBounded tb.1) ?_ _ _ ?_
  · intro tb c hP
    exact burnSpreadStep_temp_bounded s R tb c hP
  · refine foldl_pres (P := fun (tb : Grid × Grid) => TempBounded tb.1) ?_ _ _ h
    intro tb c hP
    exact suppressionStep_temp_bounded s tb c hP

theorem start_fire_temp_bounded (s : FireSystem) (p : ℤ × ℤ) (r : ℤ)
    (h : TempBounded s.temperature_grid) :
    TempBounded (start_fire s p r).temperature_grid := by
  unfold start_fire
  refine foldl_pres (P := fun (s' : FireSystem) =>
    TempBounded s'.temperature_grid) ?_ _ _ h
  intro s' d hP
  unfold startFireStep
  split
  · split
    · intro a b
      show 0 ≤ setCell s'.temperature_grid _ _ MAX_TEMP a b ∧
        setCell s'.temperature_grid _ _ MAX_TEMP a b ≤ MAX_TEMP
      rcases setCell_eq_cases s'.temperature_grid (p.1 + d.1) (p.2 + d.2)
        MAX_TEMP a b with ⟨_, _, hc⟩ | hc
      · rw [hc]
        norm_num [MAX_TEMP]
      · rw [hc]
        exact hP a b
    · exact hP
  · exact hP

/-- C3 (amended): in every reachable state — after construction and any
sequence of `start_fire`, `update` and `deploy_suppressants` calls — every
cell's temperature satisfies `0 ≤ temperature[i,j] ≤ MAX_TEMP`.  The claimed
lower bound `AMBIENT_TEMP` does not hold (construction zeroes the grid, see
the counterexample); 0 is the tight lower bound. -/
theorem C3_temperature_bounds (s : FireSystem) (h : Reachable s) (a b : ℤ) :
    0 ≤ s.temperature_grid a b ∧ s.temperature_grid a b ≤ MAX_TEMP := by
  have hT : TempBounded s.temperature_grid := by
    induction h with
    | init n tn mn hn =>
      intro a b
      show (0 : ℚ) ≤ 0 ∧ (0 : ℚ) ≤ MAX_TEMP
      norm_num [MAX_TEMP]
    | start_fire p r _ ih => exact start_fire_temp_bounded _ p r ih
    | update R _ ih => exact update_temp_bounded R _ ih
    | deploy wi wj _ ih =>
      rw [deploy_temperature]
      exact ih
  exact hT a b

/-- C3 witness: the bounds hold at a concrete reachable state. -/
theorem C3_temperature_bounds_witness :
    0 ≤ (initGrids 2 zeroNoise zeroNoise).temperature_grid 0 0 ∧
    (initGrids 2 zeroNoise zeroNoise).temperature_grid 0 0 ≤ MAX_TEMP :=
  C3_temperature_bounds (initGrids 2 zeroNoise zeroNoise)
    (Reachable.init 2 zeroNoise zeroNoise (by norm_num)) 0 0

end FatSparrow
